import Mathlib

/-!
Shallow embedding of the graph-visualization engine in
src/components/GraphVisualization.tsx.

Conventions of the embedding:
* Coordinates are rationals.  The JavaScript calls to Math.random() are
  modelled by an explicit stream rng : Nat -> Rat of draws in [0,1); every
  call consumes the next index, so a layout run is a function of the stream.
* The code computes cos(angle) and sin(angle) with angle = random * 2 * pi.
  The composition t |-> (cos (2 pi t), sin (2 pi t)) is modelled by one
  abstract function circle : Rat -> Rat x Rat; theorems that need it assume
  the unit-circle identity pointwise.
* JavaScript Set objects are modelled by lists (for the occupancy grid,
  where only membership is tested) and by Finset String (for the search
  sets, where only set contents are observable).
-/

structure GraphNode where
  id : String
  label : String
  type : Option String := none
  description : Option String := none
deriving DecidableEq, Repr

structure GraphEdge where
  source : String
  target : String
  weight : Option ℚ := none
  type : Option String := none
deriving DecidableEq, Repr

/-- A node together with the x, y produced by the layout
(`{...node, x, y}` in `applySimpleLayout`). -/
structure PositionedNode extends GraphNode where
  x : ℚ
  y : ℚ
deriving DecidableEq, Repr

/-- The edge-count map of `applySimpleLayout` (lines 393-398): every
appearance of the id as `source` and every appearance as `target`
contributes 1, so a self-loop contributes 2. -/
def edgeCount (edges : List GraphEdge) (id : String) : ℕ :=
  (edges.filter (fun e => e.source == id)).length
    + (edges.filter (fun e => e.target == id)).length

/-- Insert a node into a list already sorted by descending degree, after
every element of strictly larger degree and before every element of equal
or smaller degree.  This realizes the stable descending sort that
`[...nodes].sort((a, b) => countB - countA)` performs (Array.prototype.sort
is stable per the language standard). -/
def insertDesc (deg : String → ℕ) (n : GraphNode) : List GraphNode → List GraphNode
  | [] => [n]
  | m :: ms => if deg n.id < deg m.id then m :: insertDesc deg n ms else n :: m :: ms

/-- Stable sort by descending degree (line 401-405 of the source). -/
def sortNodesByDegree (deg : String → ℕ) : List GraphNode → List GraphNode
  | [] => []
  | n :: ns => insertDesc deg n (sortNodesByDegree deg ns)

/-- One candidate position for a node, by connectivity tier
(lines 419-446).  Each tier consumes the draws at indices k and k+1:
angle draw then radius draw for the connected tiers, x draw then y draw
for the isolated tier. -/
def samplePos (circle : ℚ → ℚ × ℚ) (rng : ℕ → ℚ) (k : ℕ)
    (edgeCnt : ℕ) (width height : ℚ) : ℚ × ℚ :=
  if 3 ≤ edgeCnt then
    let c := circle (rng k)
    let radius := rng (k + 1) * (min width height * (1/5))
    (width / 2 + radius * c.1, height / 2 + radius * c.2)
  else if 1 ≤ edgeCnt then
    let c := circle (rng k)
    let innerRadius := min width height * (1/4)
    let outerRadius := min width height * (2/5)
    let radius := innerRadius + rng (k + 1) * (outerRadius - innerRadius)
    (width / 2 + radius * c.1, height / 2 + radius * c.2)
  else
    (100 + rng k * (width - 2 * 100), 100 + rng (k + 1) * (height - 2 * 100))

/-- The occupancy-grid key `${Math.floor(x/80)},${Math.floor(y/80)}`
(line 449), with the string key replaced by the integer pair it encodes. -/
def posKey (x y : ℚ) : ℤ × ℤ := (⌊x / 80⌋, ⌊y / 80⌋)

/-- The do-while resampling loop (lines 419-451).  `a` is the number of
attempts already made; the body samples at draw index k + 2a, increments
the attempt count, and repeats while the grid cell is occupied and fewer
than 100 attempts have been made.  The fuel argument is 99 - a at every
reachable call, so the fuel-0 base case coincides with the loop guard
`attempts < 100` turning false.  Returns (x, y, attempts). -/
def placeLoopAux (circle : ℚ → ℚ × ℚ) (rng : ℕ → ℚ) (used : List (ℤ × ℤ))
    (edgeCnt : ℕ) (width height : ℚ) (k : ℕ) : ℕ → ℕ → ℚ × ℚ × ℕ
  | a, 0 =>
    let p := samplePos circle rng (k + 2 * a) edgeCnt width height
    (p.1, p.2, a + 1)
  | a, fuel + 1 =>
    let p := samplePos circle rng (k + 2 * a) edgeCnt width height
    if posKey p.1 p.2 ∈ used ∧ a + 1 < 100 then
      placeLoopAux circle rng used edgeCnt width height k (a + 1) fuel
    else
      (p.1, p.2, a + 1)

/-- The resampling loop started with 0 prior attempts. -/
def placeLoop (circle : ℚ → ℚ × ℚ) (rng : ℕ → ℚ) (used : List (ℤ × ℤ))
    (edgeCnt : ℕ) (width height : ℚ) (k : ℕ) : ℚ × ℚ × ℕ :=
  placeLoopAux circle rng used edgeCnt width height k 0 99

/-- Placement of one node (loop, fallback test `attempts >= maxAttempts`,
grid marking and clamped push, lines 412-469).  Returns the positioned
node, the grid with the pre-clamp key of the accepted position added, and
the next unconsumed draw index. -/
def placeNode (circle : ℚ → ℚ × ℚ) (rng : ℕ → ℚ) (k : ℕ) (used : List (ℤ × ℤ))
    (node : GraphNode) (edgeCnt : ℕ) (width height : ℚ) :
    PositionedNode × List (ℤ × ℤ) × ℕ :=
  let r := placeLoop circle rng used edgeCnt width height k
  if 100 ≤ r.2.2 then
    let fx := 100 + rng (k + 2 * r.2.2) * (width - 2 * 100)
    let fy := 100 + rng (k + 2 * r.2.2 + 1) * (height - 2 * 100)
    (⟨node, max 50 (min (width - 50) fx), max 50 (min (height - 50) fy)⟩,
     posKey fx fy :: used, k + 2 * r.2.2 + 2)
  else
    (⟨node, max 50 (min (width - 50) r.1), max 50 (min (height - 50) r.2.1)⟩,
     posKey r.1 r.2.1 :: used, k + 2 * r.2.2)

/-- The fold of `sortedNodes.forEach` over the placement routine, threading
the occupancy grid and the draw index. -/
def layoutGo (circle : ℚ → ℚ × ℚ) (rng : ℕ → ℚ) (edges : List GraphEdge)
    (width height : ℚ) : List GraphNode → List (ℤ × ℤ) → ℕ → List PositionedNode
  | [], _, _ => []
  | n :: ns, used, k =>
    let r := placeNode circle rng k used n (edgeCount edges n.id) width height
    r.1 :: layoutGo circle rng edges width height ns r.2.1 r.2.2

/-- `applySimpleLayout(nodes, edges, width, height)` (lines 391-472), with
the ambient randomness made an explicit argument. -/
def applySimpleLayout (circle : ℚ → ℚ × ℚ) (rng : ℕ → ℚ) (nodes : List GraphNode)
    (edges : List GraphEdge) (width height : ℚ) : List PositionedNode :=
  layoutGo circle rng edges width height (sortNodesByDegree (edgeCount edges) nodes) [] 0

/-- Degree as the words of claim C5 state it: the count of edge records in
which the id appears as source or target (a self-loop record counts once).
Stated from the claim wording, for comparison with `edgeCount`, which is
taken from the source and counts each endpoint slot separately. -/
def specDegree (edges : List GraphEdge) (id : String) : ℕ :=
  (edges.filter (fun e => e.source == id || e.target == id)).length

/-- The built-in fixture graph of `loadMockData` (lines 108-130). -/
def mockNodes : List GraphNode :=
  [{ id := "ALEX CHEN", label := "Alex Chen", type := some "person" },
   { id := "UNIVERSITY OF CALIFORNIA, BERKELEY", label := "UC Berkeley", type := some "organization" },
   { id := "TECHSTART INC.", label := "TechStart Inc.", type := some "organization" },
   { id := "SARAH JOHNSON", label := "Sarah Johnson", type := some "person" },
   { id := "META", label := "Meta", type := some "organization" },
   { id := "GOOGLE", label := "Google", type := some "organization" },
   { id := "MICHAEL RODRIGUEZ", label := "Michael Rodriguez", type := some "person" },
   { id := "STANFORD UNIVERSITY", label := "Stanford University", type := some "organization" }]

/-- The fixture edges of `loadMockData`. -/
def mockEdges : List GraphEdge :=
  [{ source := "ALEX CHEN", target := "UNIVERSITY OF CALIFORNIA, BERKELEY", weight := some (8/10) },
   { source := "ALEX CHEN", target := "TECHSTART INC.", weight := some (9/10) },
   { source := "SARAH JOHNSON", target := "META", weight := some (7/10) },
   { source := "SARAH JOHNSON", target := "GOOGLE", weight := some (6/10) },
   { source := "MICHAEL RODRIGUEZ", target := "STANFORD UNIVERSITY", weight := some (8/10) },
   { source := "MICHAEL RODRIGUEZ", target := "GOOGLE", weight := some (9/10) }]

/-- Lower-casing of a string, on its character list (JavaScript
`toLowerCase`, which agrees with per-character lowering on the ASCII data
this component handles). -/
def lowerChars (s : List Char) : List Char :=
  s.map Char.toLower

/-- JavaScript `text.split(',')` on the character list: the groups of
characters between the commas, in order, empty groups kept. -/
def splitComma : List Char → List (List Char)
  | [] => [[]]
  | c :: cs =>
    if c = ',' then [] :: splitComma cs
    else
      match splitComma cs with
      | [] => [[c]]
      | g :: gs => (c :: g) :: gs

/-- JavaScript `trim` on the character list: strip leading and trailing
whitespace. -/
def trimChars (s : List Char) : List Char :=
  ((s.dropWhile Char.isWhitespace).reverse.dropWhile Char.isWhitespace).reverse

/-- JavaScript `s.includes(sub)`: substring containment on character
lists. -/
def containsChars (s sub : List Char) : Bool :=
  decide (sub <:+: s)

/-- `searchText.split(',').map(trim).filter(length > 0)` (line 162). -/
def searchTerms (text : String) : List (List Char) :=
  ((splitComma text.data).map trimChars).filter (fun t => 0 < t.length)

/-- The per-term node filter (lines 167-171): the lower-cased term occurs
in the lower-cased label or in the lower-cased id. -/
def nodeMatches (term : List Char) (n : GraphNode) : Bool :=
  containsChars (lowerChars n.label.data) (lowerChars term) ||
    containsChars (lowerChars n.id.data) (lowerChars term)

/-- `allMatchingNodes` (lines 165-175): the union over the terms of the
ids of the nodes matching that term. -/
def matchedIds (text : String) (nodes : List GraphNode) : Finset String :=
  ((searchTerms text).flatMap
    (fun term => (nodes.filter (nodeMatches term)).map (fun n => n.id))).toFinset

/-- `adjacentNodes` (lines 180-190): for every matched id and every edge,
the far endpoint of the edge when the matched id is its source or its
target.  The code iterates over the matched set and then the edges; only
the resulting set is observable, so the iteration is folded into one
comprehension over the edges. -/
def adjacentIds (matched : Finset String) (edges : List GraphEdge) : Finset String :=
  (edges.flatMap (fun e =>
    (if e.source ∈ matched then [e.target] else []) ++
    (if e.target ∈ matched then [e.source] else []))).toFinset

/-- The search effect (lines 156-196): on blank text both sets are empty,
otherwise the matched set and its union with the one-hop neighbours.
Returns (initiallyMatchingNodes, visibleNodes). -/
def searchState (text : String) (nodes : List GraphNode) (edges : List GraphEdge) :
    Finset String × Finset String :=
  if trimChars text.data = [] then (∅, ∅)
  else
    let m := matchedIds text nodes
    (m, m ∪ adjacentIds m edges)

/-- Opacity assigned to a drawn node circle by `updateNodeVisibility`
(lines 337-346). -/
def nodeOpacity (text : String) (visible : Finset String) (nodeId : String) : ℚ :=
  if trimChars text.data = [] ∨ nodeId ∈ visible then 1 else 0

/-- Opacity assigned to a drawn label by `updateNodeVisibility`
(lines 348-357). -/
def labelOpacity (text : String) (visible : Finset String) (nodeId : String) : ℚ :=
  if trimChars text.data = [] ∨ nodeId ∈ visible then 1 else 0

/-- Opacity assigned to a drawn edge by `updateNodeVisibility`
(lines 360-371). -/
def edgeOpacity (text : String) (visible : Finset String) (source target : String) : ℚ :=
  if trimChars text.data = [] ∨ (source ∈ visible ∧ target ∈ visible) then 6/10 else 0

/-- The `transform` state `{x, y, scale}`. -/
structure Transform where
  x : ℚ
  y : ℚ
  scale : ℚ
deriving DecidableEq, Repr

/-- The pan-related component state: `transform`, `isDragging`,
`dragStart`. -/
structure PanState where
  transform : Transform
  isDragging : Bool
  dragStart : ℚ × ℚ
deriving DecidableEq, Repr

/-- `handleMouseDown` (lines 211-214). -/
def handleMouseDown (s : PanState) (clientX clientY : ℚ) : PanState :=
  { s with isDragging := true,
           dragStart := (clientX - s.transform.x, clientY - s.transform.y) }

/-- `handleMouseMove` (lines 216-224). -/
def handleMouseMove (s : PanState) (clientX clientY : ℚ) : PanState :=
  if s.isDragging then
    { s with transform :=
        ⟨clientX - s.dragStart.1, clientY - s.dragStart.2, s.transform.scale⟩ }
  else s

/-- `handleMouseUp` (lines 226-228). -/
def handleMouseUp (s : PanState) : PanState :=
  { s with isDragging := false }

/-- A drawn SVG line element (lines 257-278). -/
structure LinePrim where
  x1 : ℚ
  y1 : ℚ
  x2 : ℚ
  y2 : ℚ
  stroke : String
  strokeWidth : ℚ
  opacity : ℚ
  source : String
  target : String
deriving DecidableEq, Repr

/-- A drawn SVG circle element (lines 286-309). -/
structure CirclePrim where
  cx : ℚ
  cy : ℚ
  r : ℚ
  fill : String
  stroke : String
  strokeWidth : ℚ
  nodeId : String
deriving DecidableEq, Repr

/-- A drawn SVG text element (lines 312-325). -/
structure LabelPrim where
  x : ℚ
  y : ℚ
  textAnchor : String
  fontSize : ℚ
  fill : String
  fontWeight : String
  text : String
  nodeId : String
deriving DecidableEq, Repr

/-- The drawn scene: the children of the `#graph-content` group. -/
structure Scene where
  lines : List LinePrim
  circles : List CirclePrim
  labels : List LabelPrim
deriving DecidableEq, Repr

/-- `nodes.find(n => n.id === id)`. -/
def findNode (nodes : List PositionedNode) (id : String) : Option PositionedNode :=
  nodes.find? (fun n => n.id == id)

/-- The per-edge rendering step of `drawGraph` (lines 251-280): a line is
created only when both endpoints are found among the positioned nodes. -/
def edgeLine (nodes : List PositionedNode) (e : GraphEdge) : Option LinePrim :=
  match findNode nodes e.source, findNode nodes e.target with
  | some s, some t =>
    some { x1 := s.x, y1 := s.y, x2 := t.x, y2 := t.y,
           stroke := if s.type = some "person" ∨ t.type = some "person" then "#4CAF50" else "#999",
           strokeWidth := if s.type = some "person" ∨ t.type = some "person" then 2 else 1,
           opacity := 6/10, source := e.source, target := e.target }
  | _, _ => none

/-- Node radius by type (lines 291-294). -/
def nodeRadius (n : PositionedNode) : ℚ :=
  if n.type = some "person" then 14
  else if n.type = some "organization" then 12
  else if n.type = some "technology" then 11
  else 10

/-- Node fill color by type (lines 298-301). -/
def nodeFillColor (n : PositionedNode) : String :=
  if n.type = some "person" then "#4CAF50"
  else if n.type = some "organization" then "#2196F3"
  else if n.type = some "technology" then "#9C27B0"
  else "#FF9800"

/-- The circle drawn for a node (lines 286-309). -/
def nodeCircle (isDark : Bool) (n : PositionedNode) : CirclePrim :=
  { cx := n.x, cy := n.y, r := nodeRadius n, fill := nodeFillColor n,
    stroke := if isDark then "#000" else "#fff", strokeWidth := 2, nodeId := n.id }

/-- The label drawn for a node (lines 312-325), including the
type-dependent truncation with ellipsis. -/
def nodeLabel (isDark : Bool) (n : PositionedNode) : LabelPrim :=
  let maxLength : ℕ := if n.type = some "person" then 20 else 15
  { x := n.x, y := n.y + nodeRadius n + 15, textAnchor := "middle",
    fontSize := if n.type = some "person" then 10 else 9,
    fill := if isDark then "#fff" else "#333",
    fontWeight := if n.type = some "person" then "bold" else "normal",
    text := if maxLength < n.label.length then n.label.take maxLength ++ "..." else n.label,
    nodeId := n.id }

/-- The scene produced by `drawGraph` (lines 230-327) from the positioned
nodes: edges first, then circles, then labels. -/
def drawGraphScene (positioned : List PositionedNode) (edges : List GraphEdge)
    (isDark : Bool) : Scene :=
  { lines := edges.filterMap (edgeLine positioned),
    circles := positioned.map (nodeCircle isDark),
    labels := positioned.map (nodeLabel isDark) }

/-- `updateThemeColors` (lines 374-389): rewrite the stroke of every
circle and the fill of every label, touch nothing else. -/
def updateThemeColors (scene : Scene) (isDark : Bool) : Scene :=
  { scene with
    circles := scene.circles.map (fun c => { c with stroke := if isDark then "#000" else "#fff" }),
    labels := scene.labels.map (fun l => { l with fill := if isDark then "#fff" else "#333" }) }

/-- The placement region claimed for each connectivity tier, measured on
pre-clamp coordinates: the central disk for degree at least 3, the
annulus for degree 1 or 2, the padded canvas for degree 0. -/
def tierRegion (edgeCnt : ℕ) (width height x y : ℚ) : Prop :=
  if 3 ≤ edgeCnt then
    (x - width / 2) ^ 2 + (y - height / 2) ^ 2 ≤ (min width height * (1/5)) ^ 2
  else if 1 ≤ edgeCnt then
    (min width height * (1/4)) ^ 2 ≤ (x - width / 2) ^ 2 + (y - height / 2) ^ 2
      ∧ (x - width / 2) ^ 2 + (y - height / 2) ^ 2 ≤ (min width height * (2/5)) ^ 2
  else
    100 ≤ x ∧ x ≤ width - 100 ∧ 100 ≤ y ∧ y ≤ height - 100

/-! ### Helper lemmas -/

theorem placeNode_fst_toGraphNode (circle : ℚ → ℚ × ℚ) (rng : ℕ → ℚ) (k : ℕ)
    (used : List (ℤ × ℤ)) (node : GraphNode) (edgeCnt : ℕ) (width height : ℚ) :
    (placeNode circle rng k used node edgeCnt width height).1.toGraphNode = node := by
  unfold placeNode
  dsimp only
  split <;> rfl

theorem layoutGo_map_toGraphNode (circle : ℚ → ℚ × ℚ) (rng : ℕ → ℚ)
    (edges : List GraphEdge) (width height : ℚ) :
    ∀ (l : List GraphNode) (used : List (ℤ × ℤ)) (k : ℕ),
      (layoutGo circle rng edges width height l used k).map PositionedNode.toGraphNode = l
  | [], _, _ => rfl
  | n :: ns, used, k => by
    simp only [layoutGo, List.map_cons, placeNode_fst_toGraphNode,
      layoutGo_map_toGraphNode circle rng edges width height ns]

theorem insertDesc_perm (deg : String → ℕ) (n : GraphNode) :
    ∀ l : List GraphNode, (insertDesc deg n l).Perm (n :: l)
  | [] => List.Perm.refl _
  | m :: ms => by
    unfold insertDesc
    split
    · exact ((insertDesc_perm deg n ms).cons m).trans (List.Perm.swap _ _ _)
    · exact List.Perm.refl _

theorem sortNodesByDegree_perm (deg : String → ℕ) :
    ∀ l : List GraphNode, (sortNodesByDegree deg l).Perm l
  | [] => List.Perm.refl _
  | n :: ns =>
    (insertDesc_perm deg n (sortNodesByDegree deg ns)).trans
      ((sortNodesByDegree_perm deg ns).cons n)

theorem mem_insertDesc (deg : String → ℕ) (n x : GraphNode) (l : List GraphNode) :
    x ∈ insertDesc deg n l ↔ x = n ∨ x ∈ l := by
  rw [(insertDesc_perm deg n l).mem_iff, List.mem_cons]

theorem pairwise_insertDesc (deg : String → ℕ) (n : GraphNode) :
    ∀ l : List GraphNode,
      List.Pairwise (fun a b => deg b.id ≤ deg a.id) l →
      List.Pairwise (fun a b => deg b.id ≤ deg a.id) (insertDesc deg n l)
  | [], _ => List.pairwise_singleton _ n
  | m :: ms, h => by
    rcases List.pairwise_cons.mp h with ⟨hm, hms⟩
    unfold insertDesc
    split
    · refine List.pairwise_cons.mpr ⟨?_, pairwise_insertDesc deg n ms hms⟩
      intro x hx
      rcases (mem_insertDesc deg n x ms).mp hx with rfl | hx
      · omega
      · exact hm x hx
    · refine List.pairwise_cons.mpr ⟨?_, h⟩
      intro x hx
      rcases List.mem_cons.mp hx with rfl | hx
      · omega
      · exact le_trans (hm x hx) (by omega)

theorem sortNodesByDegree_pairwise (deg : String → ℕ) :
    ∀ l : List GraphNode,
      List.Pairwise (fun a b => deg b.id ≤ deg a.id) (sortNodesByDegree deg l)
  | [] => List.Pairwise.nil
  | n :: ns =>
    pairwise_insertDesc deg n _ (sortNodesByDegree_pairwise deg ns)

theorem filter_insertDesc (deg : String → ℕ) (n : GraphNode) (d : ℕ) :
    ∀ l : List GraphNode,
      (insertDesc deg n l).filter (fun x => deg x.id == d)
        = if deg n.id = d then n :: l.filter (fun x => deg x.id == d)
          else l.filter (fun x => deg x.id == d)
  | [] => by
    by_cases h : deg n.id = d <;> simp [insertDesc, h]
  | m :: ms => by
    unfold insertDesc
    split
    · rename_i hlt
      rw [List.filter_cons, List.filter_cons, filter_insertDesc deg n d ms]
      by_cases hm : deg m.id = d
      · have hn : ¬ deg n.id = d := by omega
        simp [hm, hn]
      · by_cases hn : deg n.id = d <;> simp [hm, hn]
    · by_cases hn : deg n.id = d <;> simp [List.filter_cons, hn]

theorem filter_sortNodesByDegree (deg : String → ℕ) (d : ℕ) :
    ∀ l : List GraphNode,
      (sortNodesByDegree deg l).filter (fun x => deg x.id == d)
        = l.filter (fun x => deg x.id == d)
  | [] => rfl
  | n :: ns => by
    rw [sortNodesByDegree, filter_insertDesc]
    by_cases hn : deg n.id = d <;>
      simp [hn, filter_sortNodesByDegree deg d ns]

theorem placeNode_bounds (circle : ℚ → ℚ × ℚ) (rng : ℕ → ℚ) (k : ℕ)
    (used : List (ℤ × ℤ)) (node : GraphNode) (edgeCnt : ℕ) (width height : ℚ)
    (hw : 100 ≤ width) (hh : 100 ≤ height) :
    50 ≤ (placeNode circle rng k used node edgeCnt width height).1.x
    ∧ (placeNode circle rng k used node edgeCnt width height).1.x ≤ width - 50
    ∧ 50 ≤ (placeNode circle rng k used node edgeCnt width height).1.y
    ∧ (placeNode circle rng k used node edgeCnt width height).1.y ≤ height - 50 := by
  have hw2 : (50 : ℚ) ≤ width - 50 := by linarith
  have hh2 : (50 : ℚ) ≤ height - 50 := by linarith
  unfold placeNode
  dsimp only
  split <;>
    exact ⟨le_max_left _ _, max_le hw2 (min_le_left _ _),
      le_max_left _ _, max_le hh2 (min_le_left _ _)⟩

theorem layoutGo_bounds (circle : ℚ → ℚ × ℚ) (rng : ℕ → ℚ) (edges : List GraphEdge)
    (width height : ℚ) (hw : 100 ≤ width) (hh : 100 ≤ height) :
    ∀ (l : List GraphNode) (used : List (ℤ × ℤ)) (k : ℕ),
      ∀ p ∈ layoutGo circle rng edges width height l used k,
        50 ≤ p.x ∧ p.x ≤ width - 50 ∧ 50 ≤ p.y ∧ p.y ≤ height - 50
  | [], _, _, p, hp => absurd hp (by simp [layoutGo])
  | n :: ns, used, k, p, hp => by
    rw [layoutGo] at hp
    rcases List.mem_cons.mp hp with rfl | hp
    · exact placeNode_bounds circle rng k used n (edgeCount edges n.id) width height hw hh
    · exact layoutGo_bounds circle rng edges width height hw hh ns _ _ p hp

/-- A concrete point on the unit circle, for instantiations. -/
def unitCircleAt : ℚ → ℚ × ℚ := fun _ => (1, 0)

/-- The constant draw stream 1/2. -/
def halfStream : ℕ → ℚ := fun _ => 1/2

/-- The constant draw stream 0. -/
def zeroStream : ℕ → ℚ := fun _ => 0

/-- C10: the layout returns exactly one positioned node per input node —
none dropped, none duplicated — and each output record carries the id,
label, type and description of its input node unchanged; only x and y are
added.  Stated as: projecting the layout output back to plain nodes is a
permutation of the input list (so the multiset of full records is
preserved), and the lengths agree. -/
theorem c10_layout_preserves_nodes (circle : ℚ → ℚ × ℚ) (rng : ℕ → ℚ)
    (nodes : List GraphNode) (edges : List GraphEdge) (width height : ℚ) :
    ((applySimpleLayout circle rng nodes edges width height).map
        PositionedNode.toGraphNode).Perm nodes
    ∧ (applySimpleLayout circle rng nodes edges width height).length = nodes.length := by
  have h1 := layoutGo_map_toGraphNode circle rng edges width height
    (sortNodesByDegree (edgeCount edges) nodes) [] 0
  have hperm : ((applySimpleLayout circle rng nodes edges width height).map
      PositionedNode.toGraphNode).Perm nodes := by
    rw [applySimpleLayout, h1]
    exact sortNodesByDegree_perm _ _
  refine ⟨hperm, ?_⟩
  have := hperm.length_eq
  simpa using this

/-- C2: the layout is a deterministic function of its arguments including
the random source: two runs over the same graph and canvas whose random
streams (and circle functions) agree pointwise produce identical
positions. -/
theorem c2_layout_deterministic (circle1 circle2 : ℚ → ℚ × ℚ) (rng1 rng2 : ℕ → ℚ)
    (nodes : List GraphNode) (edges : List GraphEdge) (width height : ℚ)
    (hc : ∀ t, circle1 t = circle2 t) (hr : ∀ i, rng1 i = rng2 i) :
    applySimpleLayout circle1 rng1 nodes edges width height
      = applySimpleLayout circle2 rng2 nodes edges width height := by
  have h1 : circle1 = circle2 := funext hc
  have h2 : rng1 = rng2 := funext hr
  rw [h1, h2]

/-- Witness for C2 at a concrete seed and graph. -/
theorem c2_layout_deterministic_witness :
    applySimpleLayout unitCircleAt halfStream mockNodes mockEdges 1200 800
      = applySimpleLayout unitCircleAt halfStream mockNodes mockEdges 1200 800 :=
  c2_layout_deterministic unitCircleAt unitCircleAt halfStream halfStream
    mockNodes mockEdges 1200 800 (fun _ => rfl) (fun _ => rfl)

/-- C4 as amended: whenever the canvas is at least 100 wide and 100 tall,
every positioned node satisfies 50 <= x <= width-50 and
50 <= y <= height-50, for every graph and every random source — the final
clamp guarantees it on every placement path, including the collision
fallback. -/
theorem c4_bounds_amended (circle : ℚ → ℚ × ℚ) (rng : ℕ → ℚ)
    (nodes : List GraphNode) (edges : List GraphEdge) (width height : ℚ)
    (hw : 100 ≤ width) (hh : 100 ≤ height) :
    ∀ p ∈ applySimpleLayout circle rng nodes edges width height,
      50 ≤ p.x ∧ p.x ≤ width - 50 ∧ 50 ≤ p.y ∧ p.y ≤ height - 50 := by
  intro p hp
  exact layoutGo_bounds circle rng edges width height hw hh _ _ _ p hp

/-- Witness for C4 as amended, on the fixture graph and the 1200 x 800
canvas the component uses. -/
theorem c4_bounds_amended_witness :
    (100 : ℚ) ≤ 1200 ∧ (100 : ℚ) ≤ 800 ∧
      ∀ p ∈ applySimpleLayout unitCircleAt halfStream mockNodes mockEdges 1200 800,
        50 ≤ p.x ∧ p.x ≤ 1200 - 50 ∧ 50 ≤ p.y ∧ p.y ≤ 800 - 50 :=
  ⟨by norm_num, by norm_num,
    c4_bounds_amended unitCircleAt halfStream mockNodes mockEdges 1200 800
      (by norm_num) (by norm_num)⟩

/-- C4 counterexample: the claim quantifies over every width and height,
but on a 0 x 0 canvas the clamp produces x = 50 > width - 50, so the
stated bounds fail. -/
theorem c4_counterexample :
    ¬ ∀ p ∈ applySimpleLayout unitCircleAt zeroStream
        [{ id := "A", label := "A" }] [] 0 0,
        50 ≤ p.x ∧ p.x ≤ 0 - 50 ∧ 50 ≤ p.y ∧ p.y ≤ 0 - 50 := by
  have heq : applySimpleLayout unitCircleAt zeroStream
      [{ id := "A", label := "A" }] [] 0 0
      = [⟨{ id := "A", label := "A" }, 50, 50⟩] := by
    norm_num [applySimpleLayout, sortNodesByDegree, insertDesc, layoutGo,
      placeNode, placeLoop, placeLoopAux, samplePos, edgeCount, zeroStream,
      unitCircleAt, min_def, max_def]
  intro h
  rw [heq] at h
  have := h _ (List.mem_singleton_self _)
  norm_num at this

/-- C9: the theme update rewrites only the stroke color of the drawn
circles and the fill color of the drawn labels.  Every position attribute
is untouched: the edge lines are unchanged entirely, each circle keeps its
cx, cy (and r, fill, stroke-width, node id), each label keeps its x, y
(and anchor, font, text, node id).  Moreover re-theming a freshly drawn
scene coincides with drawing with the new theme directly, so no re-layout
is ever needed or triggered by a theme toggle. -/
theorem c9_theme_touches_only_colors (scene : Scene) (dark : Bool)
    (positioned : List PositionedNode) (edges : List GraphEdge) (d1 d2 : Bool) :
    (updateThemeColors scene dark).lines = scene.lines
    ∧ ((updateThemeColors scene dark).circles.map
        (fun c => (c.cx, c.cy, c.r, c.fill, c.strokeWidth, c.nodeId))
      = scene.circles.map (fun c => (c.cx, c.cy, c.r, c.fill, c.strokeWidth, c.nodeId)))
    ∧ ((updateThemeColors scene dark).labels.map
        (fun l => (l.x, l.y, l.textAnchor, l.fontSize, l.fontWeight, l.text, l.nodeId))
      = scene.labels.map
        (fun l => (l.x, l.y, l.textAnchor, l.fontSize, l.fontWeight, l.text, l.nodeId)))
    ∧ updateThemeColors (drawGraphScene positioned edges d1) d2
        = drawGraphScene positioned edges d2 := by
  refine ⟨rfl, ?_, ?_, ?_⟩
  · simp [updateThemeColors, List.map_map, Function.comp]
  · simp [updateThemeColors, List.map_map, Function.comp]
  · simp only [updateThemeColors, drawGraphScene, List.map_map]
    rfl

/-- C8: pointer-down stores dragStart = pointer - current pan; while the
drag is active, a pointer move by (dx, dy) from the down position sets the
pan to exactly (panX + dx, panY + dy) with the scale unchanged, and in
general every move while dragging sets the pan to pointer - dragStart at
the unchanged scale. -/
theorem c8_pan_by_pointer_delta (s : PanState) (px py dx dy qx qy : ℚ) :
    ((handleMouseDown s px py).dragStart
        = (px - s.transform.x, py - s.transform.y)
      ∧ (handleMouseDown s px py).isDragging = true
      ∧ (handleMouseDown s px py).transform = s.transform)
    ∧ ((handleMouseMove (handleMouseDown s px py) (px + dx) (py + dy)).transform.x
        = s.transform.x + dx
      ∧ (handleMouseMove (handleMouseDown s px py) (px + dx) (py + dy)).transform.y
        = s.transform.y + dy
      ∧ (handleMouseMove (handleMouseDown s px py) (px + dx) (py + dy)).transform.scale
        = s.transform.scale)
    ∧ (s.isDragging = true →
        (handleMouseMove s qx qy).transform
          = ⟨qx - s.dragStart.1, qy - s.dragStart.2, s.transform.scale⟩) := by
  refine ⟨⟨rfl, rfl, rfl⟩, ?_, ?_⟩
  · simp [handleMouseMove, handleMouseDown]
    constructor <;> ring
  · intro h
    simp [handleMouseMove, h]

/-- Witness for C8 at a concrete drag. -/
theorem c8_pan_by_pointer_delta_witness :
    (({ transform := ⟨3, 4, 2⟩, isDragging := true, dragStart := (1, 1) } : PanState).isDragging
      = true →
      (handleMouseMove { transform := ⟨3, 4, 2⟩, isDragging := true, dragStart := (1, 1) } 10 20).transform
        = ⟨10 - 1, 20 - 1, 2⟩) ∧
    (handleMouseMove (handleMouseDown { transform := ⟨3, 4, 2⟩, isDragging := false, dragStart := (0, 0) } 7 9)
        (7 + 5) (9 + 6)).transform.x
      = 3 + 5 :=
  ⟨fun h => (c8_pan_by_pointer_delta
      { transform := ⟨3, 4, 2⟩, isDragging := true, dragStart := (1, 1) } 0 0 0 0 10 20).2.2 h,
   (c8_pan_by_pointer_delta
      { transform := ⟨3, 4, 2⟩, isDragging := false, dragStart := (0, 0) } 7 9 5 6 0 0).2.1.1⟩

/-- C7: blank search text (empty or whitespace-only) makes the filter
produce an empty matched set and an empty visible set, and the renderer
treats that state as show-everything: every node and label is set to
opacity 1 and every edge to opacity 0.6 (not 0), whatever the stored
visible set contains. -/
theorem c7_blank_text_shows_everything (text : String)
    (h : trimChars text.data = []) (nodes : List GraphNode)
    (edges : List GraphEdge) (visible : Finset String) (nodeId s t : String) :
    searchState text nodes edges = (∅, ∅)
    ∧ nodeOpacity text visible nodeId = 1
    ∧ labelOpacity text visible nodeId = 1
    ∧ edgeOpacity text visible s t = 6/10
    ∧ nodeOpacity text visible nodeId ≠ 0
    ∧ edgeOpacity text visible s t ≠ 0 := by
  refine ⟨?_, ?_, ?_, ?_, ?_, ?_⟩ <;>
    simp [searchState, nodeOpacity, labelOpacity, edgeOpacity, h]

/-- Witness for C7 at whitespace-only text. -/
theorem c7_blank_text_shows_everything_witness :
    searchState "  " mockNodes mockEdges = (∅, ∅)
    ∧ nodeOpacity "  " {"GOOGLE"} "META" = 1
    ∧ edgeOpacity "  " ∅ "META" "GOOGLE" = 6/10 := by
  have h := c7_blank_text_shows_everything "  " (by decide) mockNodes mockEdges
    {"GOOGLE"} "META" "META" "GOOGLE"
  exact ⟨h.1, h.2.1, h.2.2.2.1⟩

theorem layout_mem_toGraphNode (circle : ℚ → ℚ × ℚ) (rng : ℕ → ℚ)
    (nodes : List GraphNode) (edges : List GraphEdge) (width height : ℚ)
    (p : PositionedNode) (hp : p ∈ applySimpleLayout circle rng nodes edges width height) :
    p.toGraphNode ∈ nodes := by
  have h1 := layoutGo_map_toGraphNode circle rng edges width height
    (sortNodesByDegree (edgeCount edges) nodes) [] 0
  have h2 : p.toGraphNode ∈ (applySimpleLayout circle rng nodes edges width height).map
      PositionedNode.toGraphNode := List.mem_map_of_mem _ hp
  rw [applySimpleLayout] at h2
  rw [h1] at h2
  exact (sortNodesByDegree_perm _ _).mem_iff.mp h2

theorem findNode_layout_eq_none (circle : ℚ → ℚ × ℚ) (rng : ℕ → ℚ)
    (nodes : List GraphNode) (edges : List GraphEdge) (width height : ℚ)
    (id : String) (hid : id ∉ nodes.map GraphNode.id) :
    findNode (applySimpleLayout circle rng nodes edges width height) id = none := by
  rw [findNode, List.find?_eq_none]
  intro p hp hbeq
  apply hid
  have : p.id = id := by simpa using hbeq
  rw [← this]
  exact List.mem_map_of_mem GraphNode.id
    (layout_mem_toGraphNode circle rng nodes edges width height p hp)

/-- C1 as amended: an edge with an endpoint id absent from the node set is
excluded from rendering — the lookup of the missing endpoint returns
`none`, so no line primitive is created and all code paths are total (no
exception) — but it is NOT excluded from the visibility computation: the
one-hop expansion never checks ids against the node set, so whenever the
present endpoint of a dangling edge is matched, the absent endpoint id is
added to the visible set. -/
theorem c1_dangling_edges (circle : ℚ → ℚ × ℚ) (rng : ℕ → ℚ)
    (nodes : List GraphNode) (edges : List GraphEdge) (width height : ℚ)
    (e : GraphEdge)
    (he : e.source ∉ nodes.map GraphNode.id ∨ e.target ∉ nodes.map GraphNode.id) :
    edgeLine (applySimpleLayout circle rng nodes edges width height) e = none
    ∧ (∀ text, e ∈ edges → e.source ∈ (searchState text nodes edges).1 →
        e.target ∈ (searchState text nodes edges).2)
    ∧ (∀ text, e ∈ edges → e.target ∈ (searchState text nodes edges).1 →
        e.source ∈ (searchState text nodes edges).2) := by
  refine ⟨?_, ?_, ?_⟩
  · rcases he with hs | ht
    · have h := findNode_layout_eq_none circle rng nodes edges width height e.source hs
      cases htar : findNode (applySimpleLayout circle rng nodes edges width height) e.target <;>
        simp [edgeLine, h, htar]
    · have h := findNode_layout_eq_none circle rng nodes edges width height e.target ht
      cases hsrc : findNode (applySimpleLayout circle rng nodes edges width height) e.source <;>
        simp [edgeLine, h, hsrc]
  · intro text hmem hsrc
    by_cases hb : trimChars text.data = []
    · simp [searchState, hb] at hsrc
    · simp only [searchState, hb, if_neg, ite_false] at hsrc ⊢
      apply Finset.mem_union_right
      simp only [adjacentIds, List.mem_toFinset, List.mem_flatMap]
      exact ⟨e, hmem, by simp [hsrc]⟩
  · intro text hmem htar
    by_cases hb : trimChars text.data = []
    · simp [searchState, hb] at htar
    · simp only [searchState, hb, if_neg, ite_false] at htar ⊢
      apply Finset.mem_union_right
      simp only [adjacentIds, List.mem_toFinset, List.mem_flatMap]
      exact ⟨e, hmem, by simp [htar]⟩

/-- A one-node graph with a dangling edge, for the C1 counterexample. -/
def ghostNodes : List GraphNode := [{ id := "A", label := "A" }]

/-- The dangling edge of the C1 counterexample: its target id "GHOST" is
absent from the node set. -/
def ghostEdges : List GraphEdge := [{ source := "A", target := "GHOST" }]

/-- C1 counterexample: searching "A" on the one-node graph with the
dangling edge A -> GHOST puts the absent id "GHOST" into the visible set,
so the dangling edge does contribute a neighbor id to the visibility
computation, contrary to the claim. -/
theorem c1_counterexample :
    "GHOST" ∈ (searchState "A" ghostNodes ghostEdges).2
    ∧ "GHOST" ∉ ghostNodes.map GraphNode.id := by
  have h : (searchState "A" ghostNodes ghostEdges).2 = {"A", "GHOST"} := rfl
  rw [h]
  refine ⟨by simp, by simp [ghostNodes]⟩

/-- Witness for C1 as amended: the dangling fixture edge produces no line
primitive, and its absent endpoint leaks into the visible set. -/
theorem c1_dangling_edges_witness :
    edgeLine (applySimpleLayout unitCircleAt halfStream ghostNodes ghostEdges 1200 800)
        { source := "A", target := "GHOST" } = none
    ∧ ("A" ∈ (searchState "A" ghostNodes ghostEdges).1 →
        "GHOST" ∈ (searchState "A" ghostNodes ghostEdges).2) := by
  have h := c1_dangling_edges unitCircleAt halfStream ghostNodes ghostEdges 1200 800
    { source := "A", target := "GHOST" } (Or.inr (by simp [ghostNodes]))
  exact ⟨h.1, fun hm => h.2.1 "A" (by simp [ghostEdges]) hm⟩

/-- C3: for non-blank search text, the matched set is exactly the ids of
nodes for which some comma-separated trimmed non-empty term is a
case-insensitive substring of the label or of the id; the visible set is
the matched set united with the one-hop neighbours (in either direction)
of matched nodes, and nothing else — so it contains the matched set and
expands by exactly depth 1.  On the fixture graph with text "Alex" the
matched set is exactly ALEX CHEN and the visible set is exactly the three
ids ALEX CHEN, TECHSTART INC., UNIVERSITY OF CALIFORNIA, BERKELEY. -/
theorem c3_search_filter (text : String) (nodes : List GraphNode)
    (edges : List GraphEdge) (h : trimChars text.data ≠ []) :
    (searchState text nodes edges).1 = matchedIds text nodes
    ∧ (searchState text nodes edges).2
        = matchedIds text nodes ∪ adjacentIds (matchedIds text nodes) edges
    ∧ (searchState text nodes edges).1 ⊆ (searchState text nodes edges).2
    ∧ (∀ i, i ∈ matchedIds text nodes ↔
        ∃ n ∈ nodes, n.id = i ∧ ∃ term ∈ searchTerms text,
          (lowerChars term <:+: lowerChars n.label.data
            ∨ lowerChars term <:+: lowerChars n.id.data))
    ∧ (∀ i, i ∈ adjacentIds (matchedIds text nodes) edges ↔
        ∃ e ∈ edges,
          (e.source ∈ matchedIds text nodes ∧ i = e.target)
          ∨ (e.target ∈ matchedIds text nodes ∧ i = e.source))
    ∧ matchedIds "Alex" mockNodes = {"ALEX CHEN"}
    ∧ (searchState "Alex" mockNodes mockEdges).2
        = {"ALEX CHEN", "TECHSTART INC.", "UNIVERSITY OF CALIFORNIA, BERKELEY"}
    ∧ (searchState "Alex" mockNodes mockEdges).2.card = 3 := by
  have hvis : (searchState "Alex" mockNodes mockEdges).2
      = {"ALEX CHEN", "UNIVERSITY OF CALIFORNIA, BERKELEY", "TECHSTART INC."} := rfl
  refine ⟨by simp [searchState, h], by simp [searchState, h], ?_, ?_, ?_, rfl, ?_, ?_⟩
  · simp only [searchState, h, ite_false, if_neg]
    exact Finset.subset_union_left
  · intro i
    simp only [matchedIds, List.mem_toFinset, List.mem_flatMap, List.mem_map,
      List.mem_filter, nodeMatches, containsChars, Bool.or_eq_true, decide_eq_true_eq]
    constructor
    · rintro ⟨term, hterm, n, ⟨hn, hmatch⟩, rfl⟩
      exact ⟨n, hn, rfl, term, hterm, hmatch⟩
    · rintro ⟨n, hn, rfl, term, hterm, hmatch⟩
      exact ⟨term, hterm, n, ⟨hn, hmatch⟩, rfl⟩
  · intro i
    simp only [adjacentIds, List.mem_toFinset, List.mem_flatMap, List.mem_append]
    constructor
    · rintro ⟨e, he, hi | hi⟩
      · split_ifs at hi with hc
        · simp only [List.mem_singleton] at hi
          exact ⟨e, he, Or.inl ⟨hc, hi⟩⟩
        · simp at hi
      · split_ifs at hi with hc
        · simp only [List.mem_singleton] at hi
          exact ⟨e, he, Or.inr ⟨hc, hi⟩⟩
        · simp at hi
    · rintro ⟨e, he, ⟨hc, rfl⟩ | ⟨hc, rfl⟩⟩
      · exact ⟨e, he, Or.inl (by simp [hc])⟩
      · exact ⟨e, he, Or.inr (by simp [hc])⟩
  · rw [hvis]
    rw [Finset.pair_comm "UNIVERSITY OF CALIFORNIA, BERKELEY" "TECHSTART INC."]
  · rw [hvis]
    rfl

/-- Witness for C3 at the fixture instance of the claim. -/
theorem c3_search_filter_witness :
    trimChars "Alex".data ≠ []
    ∧ matchedIds "Alex" mockNodes = {"ALEX CHEN"}
    ∧ (searchState "Alex" mockNodes mockEdges).2
        = {"ALEX CHEN", "TECHSTART INC.", "UNIVERSITY OF CALIFORNIA, BERKELEY"}
    ∧ (searchState "Alex" mockNodes mockEdges).2.card = 3 := by
  have h := c3_search_filter "Alex" mockNodes mockEdges (by decide)
  exact ⟨by decide, h.2.2.2.2.2.1, h.2.2.2.2.2.2.1, h.2.2.2.2.2.2.2⟩

theorem disk_bound (t R c1 c2 cx cy : ℚ) (ht0 : 0 ≤ t) (ht1 : t < 1)
    (hC : c1 ^ 2 + c2 ^ 2 = 1) :
    (cx + t * R * c1 - cx) ^ 2 + (cy + t * R * c2 - cy) ^ 2 ≤ R ^ 2 := by
  have h3 : (cx + t * R * c1 - cx) ^ 2 + (cy + t * R * c2 - cy) ^ 2
      = t ^ 2 * R ^ 2 * (c1 ^ 2 + c2 ^ 2) := by ring
  rw [h3, hC, mul_one]
  nlinarith [mul_nonneg (mul_nonneg (by linarith : (0:ℚ) ≤ 1 - t)
    (by linarith : (0:ℚ) ≤ 1 + t)) (sq_nonneg R)]

theorem annulus_bound (t rIn rOut c1 c2 cx cy : ℚ) (ht0 : 0 ≤ t) (ht1 : t < 1)
    (hIn : 0 ≤ rIn) (hle : rIn ≤ rOut) (hC : c1 ^ 2 + c2 ^ 2 = 1) :
    rIn ^ 2 ≤ (cx + (rIn + t * (rOut - rIn)) * c1 - cx) ^ 2
        + (cy + (rIn + t * (rOut - rIn)) * c2 - cy) ^ 2
    ∧ (cx + (rIn + t * (rOut - rIn)) * c1 - cx) ^ 2
        + (cy + (rIn + t * (rOut - rIn)) * c2 - cy) ^ 2 ≤ rOut ^ 2 := by
  have hr1 : rIn ≤ rIn + t * (rOut - rIn) := by nlinarith
  have hr2 : rIn + t * (rOut - rIn) ≤ rOut := by nlinarith
  have hexp : (cx + (rIn + t * (rOut - rIn)) * c1 - cx) ^ 2
      + (cy + (rIn + t * (rOut - rIn)) * c2 - cy) ^ 2
      = (rIn + t * (rOut - rIn)) ^ 2 * (c1 ^ 2 + c2 ^ 2) := by ring
  rw [hexp, hC, mul_one]
  exact ⟨pow_le_pow_left₀ hIn hr1 2, pow_le_pow_left₀ (le_trans hIn hr1) hr2 2⟩

theorem samplePos_tier (circle : ℚ → ℚ × ℚ) (rng : ℕ → ℚ) (k cnt : ℕ) (w h : ℚ)
    (hr : ∀ i, 0 ≤ rng i ∧ rng i < 1)
    (hc : ∀ t, (circle t).1 ^ 2 + (circle t).2 ^ 2 = 1)
    (hw : 200 ≤ w) (hh : 200 ≤ h) :
    tierRegion cnt w h (samplePos circle rng k cnt w h).1
      (samplePos circle rng k cnt w h).2 := by
  have hm : (0 : ℚ) ≤ min w h := le_trans (by norm_num) (le_min hw hh)
  obtain ⟨hb0, hb1⟩ := hr (k + 1)
  obtain ⟨ha0, ha1⟩ := hr k
  have hC := hc (rng k)
  unfold samplePos tierRegion
  by_cases h3 : 3 ≤ cnt
  · simp only [h3, if_true, ite_true]
    exact disk_bound (rng (k + 1)) (min w h * (1/5)) _ _ _ _ hb0 hb1 hC
  · by_cases h1 : 1 ≤ cnt
    · simp only [h3, h1, if_false, if_true, ite_false, ite_true]
      exact annulus_bound (rng (k + 1)) (min w h * (1/4)) (min w h * (2/5)) _ _ _ _
        hb0 hb1 (by linarith) (by linarith) hC
    · simp only [h3, h1, if_false, ite_false]
      refine ⟨by nlinarith, by nlinarith, by nlinarith, by nlinarith⟩

theorem placeLoopAux_tier (circle : ℚ → ℚ × ℚ) (rng : ℕ → ℚ) (used : List (ℤ × ℤ))
    (cnt : ℕ) (w h : ℚ) (k : ℕ)
    (hstep : ∀ j, tierRegion cnt w h (samplePos circle rng j cnt w h).1
      (samplePos circle rng j cnt w h).2) :
    ∀ (fuel a : ℕ),
      tierRegion cnt w h (placeLoopAux circle rng used cnt w h k a fuel).1
        (placeLoopAux circle rng used cnt w h k a fuel).2.1
  | 0, a => hstep (k + 2 * a)
  | fuel + 1, a => by
    rw [placeLoopAux]
    split
    · exact placeLoopAux_tier circle rng used cnt w h k hstep fuel (a + 1)
    · exact hstep (k + 2 * a)

theorem placeNode_no_fallback (circle : ℚ → ℚ × ℚ) (rng : ℕ → ℚ) (k : ℕ)
    (used : List (ℤ × ℤ)) (node : GraphNode) (cnt : ℕ) (w h : ℚ)
    (hlt : (placeLoop circle rng used cnt w h k).2.2 < 100) :
    placeNode circle rng k used node cnt w h
      = (⟨node, max 50 (min (w - 50) (placeLoop circle rng used cnt w h k).1),
            max 50 (min (h - 50) (placeLoop circle rng used cnt w h k).2.1)⟩,
         posKey (placeLoop circle rng used cnt w h k).1
             (placeLoop circle rng used cnt w h k).2.1 :: used,
         k + 2 * (placeLoop circle rng used cnt w h k).2.2) := by
  unfold placeNode
  dsimp only
  rw [if_neg (by omega)]

/-- C5 as amended: the layout processes the nodes in order of descending
degree, where the degree of a node counts each appearance of its id as an
edge source and each appearance as an edge target (so a self-loop record
contributes 2, not 1 as the claim words it); ties keep the original input
order (the sort is stable: filtering any fixed degree out of the sorted
list returns the input order).  When the random draws lie in [0,1) and the
circle function lies on the unit circle, every candidate position the
resampling loop returns lies in the claimed tier region — central disk of
radius 0.2 min(width, height) for degree at least 3, the 0.25-0.4 annulus
for degree 1-2, the 100-padded canvas for degree 0 — and whenever the loop
stays within the attempt budget the node is pushed with exactly the clamp
of that pre-clamp position. -/
theorem c5_order_and_tiers (circle : ℚ → ℚ × ℚ) (rng : ℕ → ℚ)
    (nodes : List GraphNode) (edges : List GraphEdge) (w h : ℚ)
    (used : List (ℤ × ℤ)) (k : ℕ) (n : GraphNode)
    (hr : ∀ i, 0 ≤ rng i ∧ rng i < 1)
    (hc : ∀ t, (circle t).1 ^ 2 + (circle t).2 ^ 2 = 1)
    (hw : 200 ≤ w) (hh : 200 ≤ h) :
    ((applySimpleLayout circle rng nodes edges w h).map PositionedNode.toGraphNode
        = sortNodesByDegree (edgeCount edges) nodes)
    ∧ (sortNodesByDegree (edgeCount edges) nodes).Perm nodes
    ∧ List.Pairwise (fun a b => edgeCount edges b.id ≤ edgeCount edges a.id)
        (sortNodesByDegree (edgeCount edges) nodes)
    ∧ (∀ d, (sortNodesByDegree (edgeCount edges) nodes).filter
          (fun x => edgeCount edges x.id == d)
        = nodes.filter (fun x => edgeCount edges x.id == d))
    ∧ tierRegion (edgeCount edges n.id) w h
        (placeLoop circle rng used (edgeCount edges n.id) w h k).1
        (placeLoop circle rng used (edgeCount edges n.id) w h k).2.1
    ∧ ((placeLoop circle rng used (edgeCount edges n.id) w h k).2.2 < 100 →
        placeNode circle rng k used n (edgeCount edges n.id) w h
          = (⟨n, max 50 (min (w - 50)
                (placeLoop circle rng used (edgeCount edges n.id) w h k).1),
              max 50 (min (h - 50)
                (placeLoop circle rng used (edgeCount edges n.id) w h k).2.1)⟩,
             posKey (placeLoop circle rng used (edgeCount edges n.id) w h k).1
                 (placeLoop circle rng used (edgeCount edges n.id) w h k).2.1 :: used,
             k + 2 * (placeLoop circle rng used (edgeCount edges n.id) w h k).2.2)) := by
  refine ⟨layoutGo_map_toGraphNode circle rng edges w h _ [] 0,
    sortNodesByDegree_perm _ _, sortNodesByDegree_pairwise _ _,
    fun d => filter_sortNodesByDegree _ d _, ?_, ?_⟩
  · rw [placeLoop]
    exact placeLoopAux_tier circle rng used (edgeCount edges n.id) w h k
      (fun j => samplePos_tier circle rng j (edgeCount edges n.id) w h hr hc hw hh) 99 0
  · exact placeNode_no_fallback circle rng k used n (edgeCount edges n.id) w h

/-- Witness for C5 as amended, at the fixture graph, a concrete seeded
stream and the unit-circle point (1, 0). -/
theorem c5_order_and_tiers_witness :
    ((applySimpleLayout unitCircleAt halfStream mockNodes mockEdges 1200 800).map
        PositionedNode.toGraphNode = sortNodesByDegree (edgeCount mockEdges) mockNodes)
    ∧ tierRegion (edgeCount mockEdges "ALEX CHEN") 1200 800
        (placeLoop unitCircleAt halfStream [] (edgeCount mockEdges "ALEX CHEN") 1200 800 0).1
        (placeLoop unitCircleAt halfStream [] (edgeCount mockEdges "ALEX CHEN") 1200 800 0).2.1 := by
  have h := c5_order_and_tiers unitCircleAt halfStream mockNodes mockEdges 1200 800
    [] 0 { id := "ALEX CHEN", label := "Alex Chen", type := some "person" }
    (fun i => by norm_num [halfStream]) (fun t => by norm_num [unitCircleAt])
    (by norm_num) (by norm_num)
  exact ⟨h.1, h.2.2.2.2.1⟩

/-- A three-node graph with a self-loop on A, for the C5 counterexample. -/
def loopNodes : List GraphNode :=
  [{ id := "B", label := "B" }, { id := "C", label := "C" }, { id := "A", label := "A" }]

/-- Edges for the C5 counterexample: one ordinary edge B -> C and one
self-loop A -> A. -/
def loopEdges : List GraphEdge :=
  [{ source := "B", target := "C" }, { source := "A", target := "A" }]

/-- C5 counterexample: with the claim reading of degree (count of edge
records naming the id), all three nodes have degree 1 and a stable sort
keeps the input order B, C, A; the code counts the self-loop twice, giving
A degree 2, and processes A first — so the processing order differs from
the order the claim states. -/
theorem c5_counterexample :
    (applySimpleLayout unitCircleAt zeroStream loopNodes loopEdges 400 400).map
        (fun p => p.id)
      ≠ (sortNodesByDegree (specDegree loopEdges) loopNodes).map GraphNode.id := by
  have h1 : (applySimpleLayout unitCircleAt zeroStream loopNodes loopEdges 400 400).map
      (fun p => p.id)
      = (sortNodesByDegree (edgeCount loopEdges) loopNodes).map GraphNode.id := by
    have h2 := congrArg (List.map GraphNode.id)
      (layoutGo_map_toGraphNode unitCircleAt zeroStream loopEdges 400 400
        (sortNodesByDegree (edgeCount loopEdges) loopNodes) [] 0)
    simpa [applySimpleLayout, List.map_map, Function.comp] using h2
  rw [h1]
  decide

/-- Draw stream for the C6 scenario: the first 99 attempts (draw indices
0-197) sample 0, the 100th attempt (indices 198-199) samples 1/2, and the
fallback (indices 200-201) samples 3/4. -/
def budgetRng : ℕ → ℚ := fun i => if i < 198 then 0 else if i < 200 then 1/2 else 3/4

theorem budgetRng_low (i : ℕ) (h : i < 198) : budgetRng i = 0 := by
  simp [budgetRng, h]

theorem posKey_100_100 : posKey 100 100 = (1, 1) := by
  unfold posKey
  norm_num [Int.floor_eq_iff]

theorem posKey_600_600 : posKey 600 600 = (7, 7) := by
  unfold posKey
  norm_num [Int.floor_eq_iff]

theorem budget_sample_low (a : ℕ) (h : 2 * a + 1 < 198) :
    samplePos unitCircleAt budgetRng (0 + 2 * a) 0 1200 1200 = (100, 100) := by
  have h1 : budgetRng (2 * a) = 0 := budgetRng_low _ (by omega)
  have h2 : budgetRng (2 * a + 1) = 0 := budgetRng_low _ (by omega)
  norm_num [samplePos, h1, h2]

theorem budget_sample_last :
    samplePos unitCircleAt budgetRng (0 + 2 * 99) 0 1200 1200 = (600, 600) := by
  norm_num [samplePos, budgetRng]

theorem budget_loop (nn : ℕ) (h : nn ≤ 99) :
    placeLoopAux unitCircleAt budgetRng [((1 : ℤ), (1 : ℤ))] 0 1200 1200 0 (99 - nn) nn
      = (600, 600, 100) := by
  induction nn with
  | zero =>
    rw [placeLoopAux]
    rw [show (99 : ℕ) - 0 = 99 from rfl]
    rw [budget_sample_last]
  | succ m ih =>
    rw [placeLoopAux]
    rw [budget_sample_low (99 - (m + 1)) (by omega)]
    rw [if_pos ⟨by rw [posKey_100_100]; exact List.mem_singleton_self _, by omega⟩]
    rw [show 99 - (m + 1) + 1 = 99 - m by omega]
    exact ih (by omega)

theorem placeLoopAux_attempts_le (circle : ℚ → ℚ × ℚ) (rng : ℕ → ℚ)
    (used : List (ℤ × ℤ)) (cnt : ℕ) (w h : ℚ) (k : ℕ) :
    ∀ (fuel a : ℕ), (placeLoopAux circle rng used cnt w h k a fuel).2.2 ≤ a + fuel + 1
  | 0, a => by rw [placeLoopAux]
  | fuel + 1, a => by
    rw [placeLoopAux]
    split
    · have := placeLoopAux_attempts_le circle rng used cnt w h k fuel (a + 1)
      omega
    · simp

/-- C6: the resampling loop makes at most 100 attempts for every node, so
placement always terminates; but the fallback is NOT taken exactly when
all attempts fail.  In the evaluated scenario the first 99 attempts hit
the occupied cell (1,1) and the 100th attempt finds the free cell of
(600, 600) — the loop exits returning that free position with
attempts = 100 — yet the `attempts >= maxAttempts` test then discards it
and places the node at the fallback draw (850, 850) instead, contradicting
the comment in the source that the fallback is for the case where no
non-overlapping position was found. -/
theorem c6_attempt_budget :
    (∀ (circle : ℚ → ℚ × ℚ) (rng : ℕ → ℚ) (used : List (ℤ × ℤ))
        (cnt : ℕ) (w h : ℚ) (k : ℕ),
        (placeLoop circle rng used cnt w h k).2.2 ≤ 100)
    ∧ placeLoop unitCircleAt budgetRng [((1 : ℤ), (1 : ℤ))] 0 1200 1200 0
        = (600, 600, 100)
    ∧ posKey 600 600 ∉ [((1 : ℤ), (1 : ℤ))]
    ∧ (placeNode unitCircleAt budgetRng 0 [((1 : ℤ), (1 : ℤ))]
        { id := "A", label := "A" } 0 1200 1200).1.x = 850
    ∧ (850 : ℚ) ≠ 600 := by
  have hl : placeLoop unitCircleAt budgetRng [((1 : ℤ), (1 : ℤ))] 0 1200 1200 0
      = (600, 600, 100) := budget_loop 99 le_rfl
  refine ⟨?_, hl, ?_, ?_, by norm_num⟩
  · intro circle rng used cnt w h k
    exact placeLoopAux_attempts_le circle rng used cnt w h k 99 0
  · rw [posKey_600_600]
    simp
  · simp only [placeNode, hl]
    norm_num [budgetRng, min_def, max_def]
